import Mathlib

/-!
Verification of the terminal-bot repository: a shallow embedding of the
channel-toggle policy, the firewall protection store, the message
dispatcher, the terminal output renderer, the hack-command handler, the
per-user storage API, and the deploy/remove command-line utilities,
together with theorems settling the behavioural claims about them.

Conventions of the embedding:
  * JavaScript `Map`s keyed by id strings become functions
    `String → Option _` (`none` models an absent key).
  * JavaScript `Set`s become duplicate-free `List String`s maintained via
    `List.insert` / `List.erase` (matching `Set.add` / `Set.delete`).
  * Falsy-string guards (`if (!guildId) ...`) are modelled as tests
    against the empty string, the only falsy value of type string here.
  * Timestamps (`Date.now()`) are `Nat` milliseconds.
  * Randomly generated values and network-call outcomes are inputs
    (oracle parameters), since the code treats them as environment data.
-/

namespace TerminalBot

/-! ## Channel-toggle policy (toggle.js) -/

/-- The two per-guild channel stores of the toggle module: the primary
blacklist `disabledChannels` and the legacy whitelist `enabledChannels`.
Both are `Map<guildId, Set<channelId>>`. -/
structure ToggleState where
  disabledChannels : String → Option (List String)
  enabledChannels : String → Option (List String)

/-- `isChannelEnabled(guildId, channelId)` from toggle.js: falsy ids
default-allow; a channel in the disabled set is blocked; otherwise a
non-empty whitelist must contain the channel; otherwise allow. -/
def isChannelEnabled (st : ToggleState) (guildId channelId : String) : Bool :=
  if guildId = "" ∨ channelId = "" then true
  else
    match st.disabledChannels guildId with
    | some ds =>
      if ds.contains channelId then false
      else
        match st.enabledChannels guildId with
        | some es => if es.length > 0 then es.contains channelId else true
        | none => true
    | none =>
      match st.enabledChannels guildId with
      | some es => if es.length > 0 then es.contains channelId else true
      | none => true

/-- Modelled from the spec's channel-policy invariant: if the whitelist is
non-empty, a channel is permitted only if present in the whitelist AND
absent from the disabled set; if the whitelist is empty, a channel is
permitted unless present in the disabled set. -/
def channelPermittedSpec (st : ToggleState) (guildId channelId : String) : Bool :=
  let disabled := match st.disabledChannels guildId with
    | some ds => ds.contains channelId
    | none => false
  let wl := match st.enabledChannels guildId with
    | some es => es
    | none => []
  if wl.length > 0 then wl.contains channelId && !disabled else !disabled

/-! ## Firewall protection store (commands/firewall.js) -/

/-- `Map<guildId, Set<userId>>` of users opted into hack protection. -/
def FwState : Type := String → Option (List String)

/-- `ensure(guildId)` from firewall.js: the guild's set, created empty on
first reference. -/
def fwEnsure (st : FwState) (guildId : String) : List String :=
  (st guildId).getD []

/-- `protect(guildId, userId)`: no-op on falsy ids, otherwise add the user
to the guild's set (creating it if absent). -/
def protect (guildId userId : String) (st : FwState) : FwState :=
  if guildId = "" ∨ userId = "" then st
  else fun g => if g = guildId then some ((fwEnsure st guildId).insert userId) else st g

/-- `unprotect(guildId, userId)`: no-op on falsy ids, otherwise remove the
user from the guild's set (creating the empty set if absent, exactly as
the source's `ensure` does). -/
def unprotect (guildId userId : String) (st : FwState) : FwState :=
  if guildId = "" ∨ userId = "" then st
  else fun g => if g = guildId then some ((fwEnsure st guildId).erase userId) else st g

/-- `isProtected(guildId, userId)`: false on falsy ids or an absent guild
entry, otherwise set membership. -/
def isProtected (st : FwState) (guildId userId : String) : Bool :=
  if guildId = "" ∨ userId = "" then false
  else
    match st guildId with
    | some s => s.contains userId
    | none => false

/-! ## Claim C1: isChannelEnabled matches the channel-policy invariant -/

/-- C1: for every guild and channel identifier (identifiers are non-empty
strings), `isChannelEnabled` returns exactly what the channel-policy
invariant prescribes: a channel in the disabled set is blocked regardless
of the whitelist; otherwise a non-empty whitelist must contain the
channel; otherwise the channel is permitted. -/
theorem channel_policy_invariant (st : ToggleState) (g c : String)
    (hg : g ≠ "") (hc : c ≠ "") :
    isChannelEnabled st g c = channelPermittedSpec st g c := by
  unfold isChannelEnabled channelPermittedSpec
  rw [if_neg (by simp [hg, hc])]
  cases hds : st.disabledChannels g with
  | none =>
    cases hes : st.enabledChannels g with
    | none => simp
    | some es => simp
  | some ds =>
    cases hes : st.enabledChannels g with
    | none => by_cases hmem : c ∈ ds <;> simp [hmem]
    | some es =>
      by_cases hmem : c ∈ ds <;> by_cases hlen : 0 < es.length <;>
        simp [hmem, hlen, Bool.and_comm]

/-- Witness for C1: a guild with channel "a" disabled and whitelist
["a", "b"]; channel "a" is blocked, channel "b" permitted. -/
theorem channel_policy_invariant_witness :
    ("g1" : String) ≠ "" ∧ ("a" : String) ≠ "" ∧
    isChannelEnabled
      ⟨fun g => if g = "g1" then some ["a"] else none,
       fun g => if g = "g1" then some ["a", "b"] else none⟩ "g1" "a"
      = channelPermittedSpec
      ⟨fun g => if g = "g1" then some ["a"] else none,
       fun g => if g = "g1" then some ["a", "b"] else none⟩ "g1" "a" :=
  ⟨by decide, by decide,
    channel_policy_invariant
      ⟨fun g => if g = "g1" then some ["a"] else none,
       fun g => if g = "g1" then some ["a", "b"] else none⟩
      "g1" "a" (by decide) (by decide)⟩

/-! ## Claim C6: self-protection toggling is idempotent -/

/-- C6: protecting twice leaves the user protected, and unprotecting a
user who was never protected leaves the user unprotected (the operations
are total functions: no error is possible). -/
theorem protection_toggle_idempotent (st : FwState) (g u : String)
    (hg : g ≠ "") (hu : u ≠ "") :
    isProtected (protect g u (protect g u st)) g u = true
    ∧ (isProtected st g u = false →
        isProtected (unprotect g u st) g u = false) := by
  constructor
  · simp [isProtected, protect, fwEnsure, hg, hu, List.mem_insert_iff]
  · intro hfree
    simp only [isProtected, unprotect, fwEnsure] at hfree ⊢
    rw [if_neg (by simp [hg, hu])] at hfree ⊢
    rw [if_neg (by simp [hg, hu])]
    simp only [if_pos rfl]
    cases hst : st g with
    | none => simp
    | some s =>
      rw [hst] at hfree
      simp only [Option.getD_some] at hfree ⊢
      simp at hfree ⊢
      exact fun hmem => hfree (List.mem_of_mem_erase hmem)

/-- Witness for C6 at a fresh store: user "u" in guild "g" becomes
protected after two `protect` calls, and `unprotect` on the fresh store
leaves the user unprotected. -/
theorem protection_toggle_idempotent_witness :
    ("g" : String) ≠ "" ∧ ("u" : String) ≠ "" ∧
    (isProtected (protect "g" "u" (protect "g" "u" (fun _ => none))) "g" "u" = true
      ∧ (isProtected (fun _ => none) "g" "u" = false →
          isProtected (unprotect "g" "u" (fun _ => none)) "g" "u" = false)) :=
  ⟨by decide, by decide,
    protection_toggle_idempotent (fun _ => none) "g" "u" (by decide) (by decide)⟩

/-! ## Dispatcher (index.js messageCreate handler) -/

/-- Per-user dispatcher state: the cooldown map `lastUsed`, plus the
cosmetic session stores `cwdPerUser`, `historyPerUser`, `filesPerUser`. -/
structure DState where
  lastUsed : String → Option Nat
  cwd : String → Option String
  history : String → Option (List String)
  files : String → Option (List String)

/-- An inbound Discord message as the dispatcher sees it. -/
structure InMsg where
  authorIsBot : Bool
  authorId : String
  authorName : String
  content : String
  guildId : Option String
  channelId : String

/-- The dispatcher's observable actions on one message. -/
inductive DAction where
  | cooldownNotice
  | invoke (cmd rest : String)
  | render (promptLine : String) (animate : Bool) (delay : Nat)
  | unknown (cmd : String)
  deriving DecidableEq, Repr

/-- `p` is a prefix of `s` (model of JS `String.prototype.startsWith`,
computable by the kernel unlike `String.startsWith`). -/
def strStartsWith (s p : String) : Bool :=
  p.data.isPrefixOf s.data

/-- ASCII lowercasing (model of JS `toLowerCase` on the identifiers and
command names used here). -/
def strToLower (s : String) : String :=
  String.mk (s.data.map Char.toLower)

/-- Strip leading and trailing whitespace (model of JS `trim`). -/
def strTrim (s : String) : String :=
  String.mk (((s.data.dropWhile Char.isWhitespace).reverse.dropWhile
    Char.isWhitespace).reverse)

/-- Split a character list at every separator occurrence, keeping empty
pieces (model of JS `split(sep)` for a one-character separator). -/
def splitCharAux (sep : Char) : List Char → List Char → List (List Char)
  | [], acc => [acc.reverse]
  | c :: rest, acc =>
    if c = sep then acc.reverse :: splitCharAux sep rest []
    else splitCharAux sep rest (c :: acc)

/-- JS `s.split(sep)` for a one-character separator. -/
def splitChar (sep : Char) (s : String) : List String :=
  (splitCharAux sep s.data []).map String.mk

/-- Split at whitespace runs, used for `/\s+/` splits of trimmed input
(empty pieces are dropped, matching the regex split on trimmed text). -/
def splitWsAux : List Char → List Char → List (List Char)
  | [], acc => [acc.reverse]
  | c :: rest, acc =>
    if c.isWhitespace then acc.reverse :: splitWsAux rest []
    else splitWsAux rest (c :: acc)

/-- Tokenize on whitespace, dropping empty tokens. -/
def splitWs (s : String) : List String :=
  ((splitWsAux s.data []).map String.mk).filter (fun t => t ≠ "")

/-- `isOnCooldown(id)`: an entry exists and is newer than 600ms.
`Nat` subtraction truncates at zero exactly as the JS comparison
`now - last < 600` holds for non-positive differences. -/
def dIsOnCooldown (lastUsed : String → Option Nat) (id : String) (t : Nat) : Bool :=
  match lastUsed id with
  | some t0 => t - t0 < 600
  | none => false

/-- `ensureUser(id)`: default the working directory, history and fake
file set when absent. -/
def dEnsureUser (st : DState) (id : String) : DState :=
  { st with
    cwd := fun i => if i = id then some ((st.cwd id).getD "~/workspace") else st.cwd i
    history := fun i => if i = id then some ((st.history id).getD []) else st.history i
    files := fun i =>
      if i = id then some ((st.files id).getD ["README.md", "notes.txt"]) else st.files i }

/-- Append the raw message content to the user's history. -/
def dPushHistory (st : DState) (id content : String) : DState :=
  { st with
    history := fun i =>
      if i = id then some (((st.history id).getD []) ++ [content]) else st.history i }

/-- Escape backticks as the prompt builder does
(`message.content.replace(/` with a backslash-backtick pair). -/
def escapeTicks (s : String) : String :=
  String.join (s.toList.map (fun c => if c = '\x60' then "\x5C\x60" else String.singleton c))

/-- The prompt line `user@terminal:<cwd>$ <content with ticks escaped>`. -/
def promptOf (st : DState) (m : InMsg) : String :=
  (if m.authorName = "" then "discord" else m.authorName)
    ++ "@terminal:" ++ ((st.cwd m.authorId).getD "~/workspace")
    ++ "$ " ++ escapeTicks m.content

/-- Channel gate of the messageCreate handler: only guild messages are
checked against the toggle module. -/
def channelOk (tog : ToggleState) (m : InMsg) : Bool :=
  match m.guildId with
  | some g => isChannelEnabled tog g m.channelId
  | none => true

/-- One `messageCreate` dispatch from index.js: ignore bot/unprefixed
messages and disabled channels; reject on cooldown with a single notice;
otherwise stamp the cooldown, update session state, build the prompt and
either invoke the registered handler (choosing animation and delay) and
render, or report an unknown command. `registry` tells whether a command
name is registered. -/
def dispatchStep (tog : ToggleState) (registry : String → Bool)
    (st : DState) (m : InMsg) (t : Nat) : DState × List DAction :=
  if m.authorIsBot = true then (st, [])
  else if strStartsWith m.content "$" = false then (st, [])
  else if channelOk tog m = false then (st, [])
  else if dIsOnCooldown st.lastUsed m.authorId t = true then (st, [DAction.cooldownNotice])
  else
    let st1 : DState :=
      { st with lastUsed := fun i => if i = m.authorId then some t else st.lastUsed i }
    let cmdString := strTrim (m.content.drop 1)
    if cmdString = "" then (st1, [])
    else
      let args := splitWs cmdString
      let cmd := strToLower (args.headD "")
      let rest := String.intercalate " " (args.drop 1)
      let st2 := dPushHistory (dEnsureUser st1 m.authorId) m.authorId m.content
      let promptLine := promptOf st2 m
      if registry cmd = true then
        let sudoHack := (cmd == "sudo") && strStartsWith (strToLower (strTrim rest)) "hack"
        let animate := if sudoHack = true then true else !(cmd == "help")
        let delay := if sudoHack = true then 120 else if cmd = "help" then 0 else 140
        (st2, [DAction.invoke cmd rest, DAction.render promptLine animate delay])
      else (st2, [DAction.unknown cmd])

/-! ## Claim C9: a message on cooldown changes no per-user state -/

/-- C9: for every inbound prefixed message from a user who is on
cooldown, the dispatcher leaves the whole state unchanged — the
last-invocation timestamp is not refreshed, and history, working
directory and file set are untouched. -/
theorem cooldown_frame_condition (tog : ToggleState) (registry : String → Bool)
    (st : DState) (m : InMsg) (t : Nat)
    (hpre : strStartsWith m.content "$" = true)
    (hcd : dIsOnCooldown st.lastUsed m.authorId t = true) :
    (dispatchStep tog registry st m t).1 = st := by
  unfold dispatchStep
  by_cases hbot : m.authorIsBot = true
  · simp [hbot]
  · rw [if_neg hbot, if_neg (by simp [hpre]), hcd]
    by_cases hch : channelOk tog m = false
    · simp [hch]
    · rw [if_neg hch]
      simp

/-- Witness for C9: a concrete on-cooldown message leaves the concrete
state unchanged. -/
theorem cooldown_frame_condition_witness :
    (strStartsWith "$ping" "$" = true)
    ∧ (dIsOnCooldown
        (fun i => if i = "u1" then some 1000 else none) "u1" 1300 = true)
    ∧ ((dispatchStep ⟨fun _ => none, fun _ => none⟩ (fun c => c == "ping")
        ⟨fun i => if i = "u1" then some 1000 else none,
         fun _ => none, fun _ => none, fun _ => none⟩
        ⟨false, "u1", "alice", "$ping", none, "chan"⟩
        1300).1
      = ⟨fun i => if i = "u1" then some 1000 else none,
         fun _ => none, fun _ => none, fun _ => none⟩) := by
  refine ⟨by decide, by decide, ?_⟩
  exact cooldown_frame_condition ⟨fun _ => none, fun _ => none⟩ (fun c => c == "ping")
    ⟨fun i => if i = "u1" then some 1000 else none,
     fun _ => none, fun _ => none, fun _ => none⟩
    ⟨false, "u1", "alice", "$ping", none, "chan"⟩ 1300 (by decide) (by decide)

/-! ## Claim C2: a second command within 600ms is rejected once -/

/-- If the dispatcher invoked a handler for a message, then it stamped
the author's cooldown entry with the dispatch time. -/
theorem invoke_sets_cooldown (tog : ToggleState) (registry : String → Bool)
    (st : DState) (m : InMsg) (t : Nat) (c r : String)
    (hinv : DAction.invoke c r ∈ (dispatchStep tog registry st m t).2) :
    (dispatchStep tog registry st m t).1.lastUsed m.authorId = some t := by
  unfold dispatchStep at hinv ⊢
  by_cases hbot : m.authorIsBot = true
  · simp [hbot] at hinv
  · rw [if_neg hbot] at hinv ⊢
    by_cases hpre : strStartsWith m.content "$" = false
    · simp [hpre] at hinv
    · rw [if_neg hpre] at hinv ⊢
      by_cases hch : channelOk tog m = false
      · simp [hch] at hinv
      · rw [if_neg hch] at hinv ⊢
        by_cases hcd : dIsOnCooldown st.lastUsed m.authorId t = true
        · simp [hcd] at hinv
        · rw [if_neg hcd] at hinv ⊢
          by_cases hemp : strTrim (m.content.drop 1) = ""
          · simp [hemp] at hinv
          · rw [if_neg hemp]
            simp only [dPushHistory, dEnsureUser]
            split <;> simp

/-- C2: if the dispatcher accepted a first message from a user (it
invoked a command handler for it), then a second prefixed message from
the same user arriving strictly within 600ms — in an enabled channel,
not from a bot — produces exactly one cooldown notice and nothing else:
no handler invocation and no state change. -/
theorem cooldown_rejects_second_invocation (tog : ToggleState)
    (registry : String → Bool) (st : DState) (m1 m2 : InMsg)
    (t1 t2 : Nat) (c r : String)
    (hinv : DAction.invoke c r ∈ (dispatchStep tog registry st m1 t1).2)
    (hsame : m2.authorId = m1.authorId)
    (hbot : m2.authorIsBot = false)
    (hpre : strStartsWith m2.content "$" = true)
    (hch : channelOk tog m2 = true)
    (ht : t2 - t1 < 600) :
    dispatchStep tog registry (dispatchStep tog registry st m1 t1).1 m2 t2
      = ((dispatchStep tog registry st m1 t1).1, [DAction.cooldownNotice]) := by
  have hstamp := invoke_sets_cooldown tog registry st m1 t1 c r hinv
  generalize hG : (dispatchStep tog registry st m1 t1).1 = stA at hstamp ⊢
  have hcd : dIsOnCooldown stA.lastUsed m2.authorId t2 = true := by
    unfold dIsOnCooldown
    rw [hsame, hstamp]
    simpa using ht
  unfold dispatchStep
  rw [if_neg (by simp [hbot]), if_neg (by simp [hpre]),
    if_neg (by simp [hch]), if_pos hcd]

/-- Witness for C2: user "u1" sends `$ping` at t=1000 (accepted, handler
invoked) and again at t=1400; the second dispatch yields exactly the
cooldown notice and leaves the state as it was after the first. -/
theorem cooldown_rejects_second_invocation_witness :
    (DAction.invoke "ping" "" ∈
      (dispatchStep ⟨fun _ => none, fun _ => none⟩ (fun cd => cd == "ping")
        ⟨fun _ => none, fun _ => none, fun _ => none, fun _ => none⟩
        ⟨false, "u1", "alice", "$ping", none, "chan"⟩ 1000).2)
    ∧ (1400 - 1000 < 600)
    ∧ (dispatchStep ⟨fun _ => none, fun _ => none⟩ (fun cd => cd == "ping")
        (dispatchStep ⟨fun _ => none, fun _ => none⟩ (fun cd => cd == "ping")
          ⟨fun _ => none, fun _ => none, fun _ => none, fun _ => none⟩
          ⟨false, "u1", "alice", "$ping", none, "chan"⟩ 1000).1
        ⟨false, "u1", "alice", "$ping", none, "chan"⟩ 1400
      = ((dispatchStep ⟨fun _ => none, fun _ => none⟩ (fun cd => cd == "ping")
          ⟨fun _ => none, fun _ => none, fun _ => none, fun _ => none⟩
          ⟨false, "u1", "alice", "$ping", none, "chan"⟩ 1000).1,
         [DAction.cooldownNotice])) := by
  refine ⟨by decide, by decide, ?_⟩
  exact cooldown_rejects_second_invocation ⟨fun _ => none, fun _ => none⟩
    (fun cd => cd == "ping")
    ⟨fun _ => none, fun _ => none, fun _ => none, fun _ => none⟩
    ⟨false, "u1", "alice", "$ping", none, "chan"⟩
    ⟨false, "u1", "alice", "$ping", none, "chan"⟩
    1000 1400 "ping" "" (by decide) rfl rfl (by decide) (by decide) (by decide)

/-! ## Output renderer (index.js sendTerminalResponse) -/

/-- An embed field (name, value, inline flag). -/
structure Field where
  name : String
  value : String
  inlineFlag : Bool
  deriving DecidableEq, Repr

/-- The `result` record of a hack output. `target` models the pair
`(_guildId, _targetMemberId)`; `name`..`joinedAt` are the optional
plain fields used when `typedFields` is empty. -/
structure HackFinal where
  avatar : Option String
  typedFields : List Field
  fname : Option String
  ftag : Option String
  fid : Option String
  createdAt : Option String
  joinedAt : Option String
  renamed : Bool
  mutualServersCached : Option Int
  activity : Option String
  target : Option (String × String)
  htype : String
  deriving DecidableEq, Repr

/-- A `{ hack: true, progress, result, error }` renderer input. -/
structure HackOutput where
  progress : List String
  result : Option HackFinal
  error : Option String
  deriving DecidableEq, Repr

/-- The shapes a handler result can take when it reaches the renderer:
a fully-formed embed, a hack object, a string, an array (whose non-string
elements the source maps to an empty line), null, or anything else
(rendered via its `String(...)` coercion). -/
inductive ROut where
  | emb (description : String)
  | hack (h : HackOutput)
  | str (s : String)
  | arr (elems : List (Option String))
  | nul
  | other (shown : String)
  deriving DecidableEq, Repr

/-- The renderer's observable message actions, in order: message sends
(with the embed description or field list), description edits, typed
field-block edits, the failure-styled send, and the rename attempt. -/
inductive RAction where
  | send (description : String)
  | sendRaw (description : String)
  | sendFields (fields : List Field)
  | edit (description : String)
  | editFields (fields : List Field)
  | sendFail (text : String)
  | renameAttempt (guildId memberId : String)
  deriving DecidableEq, Repr

/-- `value.slice(0, 1024)` applied before typing a field value. -/
def truncVal (v : String) : String := v.take 1024

/-- Normalization of a non-hack, non-embed result into ordered lines:
arrays flat-map (strings split on newlines, non-strings to one empty
line), strings split on newlines, null to a single empty line, anything
else to its string coercion. -/
def normalizeLines : ROut → List String
  | ROut.arr l => l.flatMap (fun e =>
      match e with
      | some s => splitChar '\x0A' s
      | none => [""])
  | ROut.str s => splitChar '\x0A' s
  | ROut.nul => [""]
  | ROut.other shown => [shown]
  | ROut.emb _ => []
  | ROut.hack _ => []

/-- The placeholder description sent before any output is shown. -/
def initDesc (p : String) : String := "```text\n" ++ p ++ "\n\n" ++ "```"

/-- The description showing the prompt followed by the given lines. -/
def fullDesc (p : String) (lines : List String) : String :=
  "```text\n" ++ p ++ "\n\n" ++ String.intercalate "\n" lines ++ "\n```"

/-- The growing-buffer animation: one edit per line, each showing the
prompt plus every line revealed so far. -/
def growEdits (p : String) (acc : List String) : List String → List RAction
  | [] => []
  | l :: rest =>
    RAction.edit (fullDesc p (acc ++ [l])) :: growEdits p (acc ++ [l]) rest

/-- The non-hack render path: placeholder send, then either one edit with
the full text (animation off) or the growing-buffer edits. -/
def normalActs (p : String) (lines : List String) (animate : Bool) : List RAction :=
  if animate = false then [RAction.send (initDesc p), RAction.edit (fullDesc p lines)]
  else RAction.send (initDesc p) :: growEdits p [] lines

/-- The `Rename` status field shown while fields are being typed. -/
def renameInterim (renamed : Bool) : Field :=
  ⟨"Rename", if renamed then "Applying..." else "Rename not applied", false⟩

/-- The `Rename` status field of the final edit. -/
def renameFinal (renamed : Bool) : Field :=
  ⟨"Rename",
    if renamed then "Member renamed to \x27Hacked\x27 (applied)"
    else "Rename not applied", false⟩

/-- Already-typed fields shown with their (truncated) full values. -/
def doneFields (tfs : List Field) (fi : Nat) : List Field :=
  (tfs.take fi).map (fun f => ⟨f.name, truncVal f.value, f.inlineFlag⟩)

/-- Not-yet-typed fields shown as blank placeholders. -/
def laterFields (tfs : List Field) (fi : Nat) : List Field :=
  (tfs.drop (fi + 1)).map (fun f => ⟨f.name, "‎", f.inlineFlag⟩)

/-- The character-by-character typing edits for field `fi`, with a
blinking cursor on alternating characters, followed by the finalizing
edit without a cursor. -/
def typeFieldActs (tfs : List Field) (renamed : Bool) (fi : Nat) (f : Field) :
    List RAction :=
  let value := truncVal f.value
  ((List.range value.length).map (fun c =>
    RAction.editFields
      (doneFields tfs fi
        ++ [⟨f.name, value.take (c + 1) ++ (if c % 2 = 0 then "▌" else ""), f.inlineFlag⟩]
        ++ laterFields tfs fi ++ [renameInterim renamed])))
  ++ [RAction.editFields
      (doneFields tfs fi ++ [⟨f.name, value, f.inlineFlag⟩]
        ++ laterFields tfs fi ++ [renameInterim renamed])]

/-- All typed fields revealed in order. -/
def allTypingActs (tfs : List Field) (renamed : Bool) : List RAction :=
  tfs.enum.flatMap (fun pr => typeFieldActs tfs renamed pr.1 pr.2)

/-- The zero-typed-fields result embed: optional plain fields plus the
final rename status. A truthy check guards each optional field. -/
def optField (n : String) (v : Option String) (inl : Bool) : List Field :=
  match v with
  | some s => if s = "" then [] else [⟨n, s, inl⟩]
  | none => []

/-- Fields of the untized (no typed fields) result send. -/
def zeroFields (r : HackFinal) (renamed : Bool) : List Field :=
  optField "Name" r.fname true ++ optField "Tag" r.ftag true
    ++ optField "ID" r.fid true
    ++ optField "Account created" r.createdAt false
    ++ optField "Server joined" r.joinedAt false
    ++ [renameFinal renamed]

/-- The last edit: rewrite the `Rename` entry (located by lowercased
name) with its final wording and append the optional summary fields. -/
def finalSplice (tfs : List Field) (renamed : Bool)
    (mcount : Option Int) (activity : Option String) : List Field :=
  let cur := tfs.map (fun f => ⟨f.name, truncVal f.value, f.inlineFlag⟩)
    ++ [renameInterim renamed]
  let cur2 :=
    match cur.findIdx? (fun f => strToLower f.name == "rename") with
    | some i => cur.set i (renameFinal renamed)
    | none => cur ++ [renameFinal renamed]
  let cur3 := cur2 ++
    (match mcount with
     | some n => [⟨"Mutual servers (cached)", toString n, true⟩]
     | none => [])
  cur3 ++
    (match activity with
     | some a => if a = "" then [] else [⟨"Activity (raw)", a, true⟩]
     | none => [])

/-- The result-rendering actions after the progress animation: the
authoritative rename attempt (when a target is carried), then either the
plain result send, or placeholder send, per-character typing edits, and
the final splice edit. The rename oracle supplies the outcome of the
guild/member fetch and `setNickname` call chain. -/
def hackResultActs (oracle : String → String → Bool) (r : HackFinal) :
    List RAction :=
  let renActs :=
    match r.target with
    | some (g, mid) =>
      if g = "" ∨ mid = "" then ([] : List RAction) else [RAction.renameAttempt g mid]
    | none => []
  let renamed :=
    match r.target with
    | some (g, mid) => if g = "" ∨ mid = "" then r.renamed else oracle g mid
    | none => r.renamed
  renActs ++
    (if r.typedFields.isEmpty then [RAction.sendFields (zeroFields r renamed)]
     else
      [RAction.sendFields
          (r.typedFields.map (fun f => ⟨f.name, "‎", f.inlineFlag⟩)
            ++ [renameInterim renamed])]
        ++ allTypingActs r.typedFields renamed
        ++ [RAction.editFields
            (finalSplice r.typedFields renamed r.mutualServersCached r.activity)])

/-- `sendTerminalResponse(channel, promptLine, output, {animate})` as the
ordered list of message actions it performs. An embed passes through as
a two-send sequence; a hack object sends a placeholder, edits once per
progress phrase, then either sends the failure embed (`error` truthy),
renders the result, or — when both `error` and `result` are absent —
falls through to the normal path with the object's string coercion; any
other output takes the normal path over its normalized lines. -/
def sendTerminalResponse (oracle : String → String → Bool) (p : String)
    (out : ROut) (animate : Bool) : List RAction :=
  match out with
  | ROut.emb e => [RAction.send ("```text\n" ++ p ++ "\n```"), RAction.sendRaw e]
  | ROut.hack h =>
    let err := match h.error with
      | some s => if s = "" then none else some s
      | none => none
    (RAction.send (initDesc p)
      :: h.progress.map (fun line =>
          RAction.edit ("```text\n" ++ p ++ "\n\n" ++ line ++ "\n```")))
      ++ (match err with
          | some e => [RAction.sendFail e]
          | none =>
            match h.result with
            | some r => hackResultActs oracle r
            | none => normalActs p ["[object Object]"] animate)
  | _ => normalActs p (normalizeLines out) animate

/-- Whether an action is a typed-field edit. -/
def isFieldEdit : RAction → Bool
  | RAction.editFields _ => true
  | _ => false

/-- Whether an action is the rename attempt. -/
def isRenameAct : RAction → Bool
  | RAction.renameAttempt _ _ => true
  | _ => false

/-! ## Claim C5: hack rendering with an error stops at the failure send -/

/-- C5: a hack-shaped result with a non-empty progress list and a
non-empty error string yields exactly one placeholder send, one edit per
progress phrase in order, and a distinct failure-styled send carrying the
error text — with no typed-field edit and no rename attempt. -/
theorem hack_error_render (oracle : String → String → Bool) (p : String)
    (h : HackOutput) (animate : Bool) (e : String)
    (_hprog : h.progress ≠ [])
    (herr : h.error = some e) (hne : e ≠ "") :
    sendTerminalResponse oracle p (ROut.hack h) animate
      = (RAction.send (initDesc p)
          :: h.progress.map (fun line =>
              RAction.edit ("```text\n" ++ p ++ "\n\n" ++ line ++ "\n```")))
        ++ [RAction.sendFail e]
    ∧ (sendTerminalResponse oracle p (ROut.hack h) animate).countP
        (fun a => isFieldEdit a) = 0
    ∧ (sendTerminalResponse oracle p (ROut.hack h) animate).countP
        (fun a => isRenameAct a) = 0 := by
  have htrace : sendTerminalResponse oracle p (ROut.hack h) animate
      = (RAction.send (initDesc p)
          :: h.progress.map (fun line =>
              RAction.edit ("```text\n" ++ p ++ "\n\n" ++ line ++ "\n```")))
        ++ [RAction.sendFail e] := by
    simp only [sendTerminalResponse]
    rw [herr]
    simp [hne]
  refine ⟨htrace, ?_, ?_⟩ <;> rw [htrace] <;>
    simp [List.countP_cons, List.countP_append, List.countP_map,
      isFieldEdit, isRenameAct, Function.comp, List.countP_eq_zero]

/-- Witness for C5 at the spec's scenario
`{hack:true, progress:["p1","p2"], error:"blocked"}`. -/
theorem hack_error_render_witness :
    ((⟨["p1", "p2"], none, some "blocked"⟩ : HackOutput).progress ≠ [])
    ∧ ((⟨["p1", "p2"], none, some "blocked"⟩ : HackOutput).error = some "blocked")
    ∧ (("blocked" : String) ≠ "")
    ∧ (sendTerminalResponse (fun _ _ => false) "u@terminal:~$ $sudo hack x"
        (ROut.hack ⟨["p1", "p2"], none, some "blocked"⟩) true
      = (RAction.send (initDesc "u@terminal:~$ $sudo hack x")
          :: (["p1", "p2"].map (fun line =>
              RAction.edit ("```text\n" ++ "u@terminal:~$ $sudo hack x"
                ++ "\n\n" ++ line ++ "\n```"))))
        ++ [RAction.sendFail "blocked"]
      ∧ (sendTerminalResponse (fun _ _ => false) "u@terminal:~$ $sudo hack x"
          (ROut.hack ⟨["p1", "p2"], none, some "blocked"⟩) true).countP
          (fun a => isFieldEdit a) = 0
      ∧ (sendTerminalResponse (fun _ _ => false) "u@terminal:~$ $sudo hack x"
          (ROut.hack ⟨["p1", "p2"], none, some "blocked"⟩) true).countP
          (fun a => isRenameAct a) = 0) := by
  refine ⟨by decide, by decide, by decide, ?_⟩
  exact hack_error_render (fun _ _ => false) "u@terminal:~$ $sudo hack x"
    ⟨["p1", "p2"], none, some "blocked"⟩ true "blocked"
    (by decide) (by decide) (by decide)

/-! ## Claim C7: normalization and final content of the plain path -/

/-- Whether a result takes the plain (non-hack, non-embed) path. -/
def isPlain : ROut → Bool
  | ROut.emb _ => false
  | ROut.hack _ => false
  | _ => true

/-- The last growing-buffer edit shows the whole accumulated text. -/
theorem growEdits_getLast (p : String) :
    ∀ (lines acc : List String), lines ≠ [] →
      (growEdits p acc lines).getLast?
        = some (RAction.edit (fullDesc p (acc ++ lines))) := by
  intro lines
  induction lines with
  | nil => intro acc hne; exact absurd rfl hne
  | cons l rest ih =>
    intro acc _
    cases rest with
    | nil => simp [growEdits]
    | cons r rs =>
      have h2 := ih (acc ++ [l]) (by simp)
      have hcons : growEdits p (acc ++ [l]) (r :: rs)
          = RAction.edit (fullDesc p ((acc ++ [l]) ++ [r]))
            :: growEdits p ((acc ++ [l]) ++ [r]) rs := rfl
      calc (growEdits p acc (l :: r :: rs)).getLast?
          = (RAction.edit (fullDesc p (acc ++ [l]))
              :: growEdits p (acc ++ [l]) (r :: rs)).getLast? := rfl
        _ = (growEdits p (acc ++ [l]) (r :: rs)).getLast? := by
            rw [hcons]; exact List.getLast?_cons_cons
        _ = some (RAction.edit (fullDesc p ((acc ++ [l]) ++ (r :: rs)))) := h2
        _ = some (RAction.edit (fullDesc p (acc ++ (l :: r :: rs)))) := by simp

/-- Mapping `some` over an array of strings then flat-mapping the
normalizer is one-level flattening with per-element newline splits. -/
theorem flatMap_map_some (strs : List String) :
    (strs.map some).flatMap (fun e =>
        match e with
        | some s => splitChar '\x0A' s
        | none => [""])
      = strs.flatMap (fun s => splitChar '\x0A' s) := by
  induction strs with
  | nil => rfl
  | cons a t ih => simp only [List.map_cons, List.flatMap_cons, ih]

/-- C7: normalization of the plain path — a string splits on newlines, an
array of strings flattens one level (each element split on newlines),
null becomes one empty line — and the final displayed content is the
normalized lines in order preceded by the prompt: the single edit of the
non-animated path shows it, and the last edit of the animated path shows
it. -/
theorem plain_normalization (oracle : String → String → Bool)
    (p s : String) (strs : List String) (out : ROut)
    (hplain : isPlain out = true)
    (hne : normalizeLines out ≠ []) :
    normalizeLines (ROut.str s) = splitChar '\x0A' s
    ∧ normalizeLines (ROut.arr (strs.map some))
        = strs.flatMap (fun x => splitChar '\x0A' x)
    ∧ normalizeLines ROut.nul = [""]
    ∧ sendTerminalResponse oracle p out false
        = [RAction.send (initDesc p), RAction.edit (fullDesc p (normalizeLines out))]
    ∧ (sendTerminalResponse oracle p out true).getLast?
        = some (RAction.edit (fullDesc p (normalizeLines out))) := by
  refine ⟨rfl, flatMap_map_some strs, rfl, ?_, ?_⟩
  · cases out with
    | emb e => simp [isPlain] at hplain
    | hack h => simp [isPlain] at hplain
    | str v => rfl
    | arr l => rfl
    | nul => rfl
    | other sh => rfl
  · have hact : sendTerminalResponse oracle p out true
        = RAction.send (initDesc p) :: growEdits p [] (normalizeLines out) := by
      cases out with
      | emb e => simp [isPlain] at hplain
      | hack h => simp [isPlain] at hplain
      | str v => rfl
      | arr l => rfl
      | nul => rfl
      | other sh => rfl
    rw [hact]
    have hlast := growEdits_getLast p (normalizeLines out) [] hne
    cases hgrow : growEdits p [] (normalizeLines out) with
    | nil =>
      rw [hgrow] at hlast
      simp at hlast
    | cons a tl =>
      rw [hgrow] at hlast
      rw [List.getLast?_cons_cons]
      simpa using hlast

/-- Witness for C7 at the spec's scenario: the array `["a", "b"]` with
animation enabled (and the other normalization cases at
`s = "x\ny"`, `strs = ["a", "b"]`). -/
theorem plain_normalization_witness :
    (isPlain (ROut.arr [some "a", some "b"]) = true)
    ∧ (normalizeLines (ROut.arr [some "a", some "b"]) ≠ [])
    ∧ (normalizeLines (ROut.str "x\ny") = splitChar '\x0A' "x\ny"
      ∧ normalizeLines (ROut.arr (["a", "b"].map some))
          = ["a", "b"].flatMap (fun x => splitChar '\x0A' x)
      ∧ normalizeLines ROut.nul = [""]
      ∧ sendTerminalResponse (fun _ _ => false) "alice@terminal:~/workspace$ $ls"
          (ROut.arr [some "a", some "b"]) false
          = [RAction.send (initDesc "alice@terminal:~/workspace$ $ls"),
             RAction.edit (fullDesc "alice@terminal:~/workspace$ $ls"
              (normalizeLines (ROut.arr [some "a", some "b"])))]
      ∧ (sendTerminalResponse (fun _ _ => false) "alice@terminal:~/workspace$ $ls"
          (ROut.arr [some "a", some "b"]) true).getLast?
          = some (RAction.edit (fullDesc "alice@terminal:~/workspace$ $ls"
              (normalizeLines (ROut.arr [some "a", some "b"]))))) := by
  refine ⟨by decide, by decide, ?_⟩
  exact plain_normalization (fun _ _ => false) "alice@terminal:~/workspace$ $ls"
    "x\ny" ["a", "b"] (ROut.arr [some "a", some "b"]) (by decide) (by decide)

/-! ## Firewall slash-command handler (index.js interactionCreate) -/

/-- A `/firewall` chat-input interaction: whether it is in a guild, the
invoker, the subcommand, and the result of `options.getUser('member')`
(always `none` for the deployed builder, which has no such option). -/
structure FwInteraction where
  inGuild : Bool
  guildId : String
  userId : String
  sub : String
  requestedUser : Option String

/-- The firewall branch of the interactionCreate handler: reject outside
guilds; reject any request whose resolved member is not the invoker
before touching the store; otherwise protect/unprotect the invoker only.
Returns the new store and the reply text. -/
def firewallInteraction (st : FwState) (i : FwInteraction) : FwState × String :=
  if i.inGuild = false then (st, "This command only works in a server.")
  else
    let requested := i.requestedUser.getD i.userId
    if requested ≠ i.userId then
      (st, "You may only change your own firewall protection (private).")
    else if i.sub = "on" then
      (protect i.guildId i.userId st,
        "🔒 You are now protected by the firewall in this server. Hacking attempts blocked.")
    else if i.sub = "off" then
      (unprotect i.guildId i.userId st,
        "🔓 You are no longer protected by the firewall in this server.")
    else (st, "Unknown subcommand")

/-! ## Hack command handler (commands/sudo/hack.js) -/

/-- The data of a resolved guild member consumed by the hack handler;
presence/about/timestamps arrive already coerced to the strings the
source derives from the discord objects. -/
structure Member where
  id : String
  username : String
  discriminator : String
  displayName : String
  createdAtIso : String
  joinedAtIso : String
  about : String
  status : String
  activity : String
  topRolePos : Int
  manageable : Bool
  deriving DecidableEq, Repr

/-- The randomly sampled fake values a single hack invocation draws;
they are inputs because the generators are `Math.random()`-based. -/
structure RandomData where
  ip : String
  ispPick : String
  lastLoginIso : String
  bankName : String
  bankBalance : String
  accountMasked : String
  lastTxn : String
  email : String
  linkedPick : String
  tierPick : String
  verifiedPick : String
  inboxCount : String
  password : String
  strengthPick : String

/-- The invocation environment of the hack handler: author, guild,
member resolution (an oracle standing for `resolveMember`), the firewall
store, role/ownership facts, and the sampled fake data. -/
structure HackCtx where
  authorId : String
  authorTopRolePos : Int
  isOwner : Bool
  inGuild : Bool
  guildId : String
  resolve : String → Option Member
  fw : FwState
  rnd : RandomData
  mutualCount : Int
  avatar : Option String

/-- The handler's side effects: the background nickname animation and
the best-effort DM notice. -/
inductive HackEffect where
  | nickAnim (memberId : String)
  | dmNotice (memberId : String)
  deriving DecidableEq, Repr

/-- A hack handler return value: a plain string or a hack object. -/
inductive HackOut where
  | text (s : String)
  | hackObj (h : HackOutput)
  deriving DecidableEq, Repr

/-- The sub-command types recognized as a trailing token. -/
def hackKnownTypes : List String := ["ip", "bank", "account", "email", "full", "profile", "password"]

/-- Token split of the argument (`arg.split(' ').filter(Boolean)`). -/
def hackTokens (arg : String) : List String :=
  (splitChar ' ' arg).filter (fun t => t ≠ "")

/-- Parse the optional trailing type token: `(type, target tokens)`. -/
def hackParse (arg : String) : String × List String :=
  let tokens := hackTokens arg
  let possibleType := strToLower (tokens.getLast?.getD "")
  if hackKnownTypes.contains possibleType then (possibleType, tokens.dropLast)
  else ("profile", tokens)

/-- The target string: remaining tokens joined and trimmed. -/
def hackTargetStr (arg : String) : String :=
  strTrim (String.intercalate " " (hackParse arg).2)

/-- The escalating `x .`, `x ..`, `x ...` progress phrases. -/
def hackProgress : List String :=
  (["Targeting user", "Bypassing firewall", "Fingerprinting host",
    "Extracting credentials", "Finalizing exploit", "Hacking",
    "Loading details"]).flatMap (fun s => [s ++ " .", s ++ " ..", s ++ " ..."])

/-- The always-shown profile fields of the result embed. -/
def hackBaseFields (m : Member) : List Field :=
  [⟨"Name", if m.displayName = "" then m.username else m.displayName, true⟩,
   ⟨"Tag", m.username ++ "#" ++ m.discriminator, true⟩,
   ⟨"ID", m.id, true⟩,
   ⟨"Account created", m.createdAtIso, false⟩,
   ⟨"Server joined", m.joinedAtIso, false⟩,
   ⟨"About", m.about, false⟩,
   ⟨"Status", if m.status = "" then "offline" else m.status, true⟩,
   ⟨"Activity", m.activity, true⟩]

/-- The type-specific fake fields. -/
def hackExtraFields (rnd : RandomData) (ty : String) : List Field :=
  if ty = "ip" then
    [⟨"Last known IP", rnd.ip, true⟩,
     ⟨"ISP", rnd.ispPick, true⟩,
     ⟨"Last login (simulated)", rnd.lastLoginIso, false⟩]
  else if ty = "bank" then
    [⟨"Bank", rnd.bankName, true⟩,
     ⟨"Balance (simulated)", rnd.bankBalance, true⟩,
     ⟨"Account (masked)", rnd.accountMasked, false⟩,
     ⟨"Last transaction (sim)", rnd.lastTxn, false⟩]
  else if ty = "account" then
    [⟨"Primary email", rnd.email, true⟩,
     ⟨"Linked services", rnd.linkedPick, true⟩,
     ⟨"Account tier", rnd.tierPick, false⟩]
  else if ty = "email" then
    [⟨"Email (simulated)", rnd.email, false⟩,
     ⟨"Email verified", rnd.verifiedPick, true⟩,
     ⟨"Inbox messages (sim)", rnd.inboxCount, true⟩]
  else if ty = "password" then
    [⟨"Likely password (simulated)", rnd.password, false⟩,
     ⟨"Password strength", rnd.strengthPick, true⟩]
  else
    [⟨"Last known IP", rnd.ip, true⟩,
     ⟨"Bank balance (sim)", rnd.bankBalance, true⟩,
     ⟨"Primary email", rnd.email, false⟩]

/-- The hack handler: usage/guild guards, argument parsing, target
resolution, the self-target rejection, the firewall and role-hierarchy
error objects, and finally the animated result together with the
nickname-animation (when the member is manageable) and DM effects. -/
def hackHandler (ctx : HackCtx) (arg : String) : HackOut × List HackEffect :=
  if arg = "" then
    (HackOut.text "Usage: sudo hack <username|nickname|mention|id> [type]", [])
  else if ctx.inGuild = false then
    (HackOut.text "This command only works in a server", [])
  else
    let ty := (hackParse arg).1
    let targetStr := hackTargetStr arg
    if targetStr = "" then
      (HackOut.text "Usage: sudo hack <username|nickname|mention|id> [type]", [])
    else
      match ctx.resolve targetStr with
      | none => (HackOut.text ("Cannot hack unknown target: " ++ targetStr), [])
      | some m =>
        if m.id = "" then
          (HackOut.text ("Cannot resolve target as server member: " ++ targetStr), [])
        else if m.id = ctx.authorId then
          (HackOut.text "You cannot hack yourself. Nice try.", [])
        else if isProtected ctx.fw ctx.guildId m.id = true then
          (HackOut.hackObj
            ⟨["Targeting user .", "Targeting user ..", "Targeting user ...",
              "Checking firewall .", "Checking firewall ..", "Checking firewall ..."],
             none,
             some ("Firewall active: " ++ m.username
               ++ " is protected in this server. Hacking blocked.")⟩, [])
        else if m.topRolePos ≥ ctx.authorTopRolePos ∧ ctx.isOwner = false then
          (HackOut.hackObj
            ⟨["Targeting user .", "Targeting user ..", "Targeting user ...",
              "Examining privileges .", "Examining privileges ..",
              "Examining privileges ..."],
             none,
             some ("Permission error: " ++ m.username
               ++ " is higher or equal in role hierarchy. Action denied.")⟩, [])
        else
          let canManage := m.manageable
          let effects := (if canManage then [HackEffect.nickAnim m.id] else [])
            ++ [HackEffect.dmNotice m.id]
          (HackOut.hackObj
            ⟨hackProgress,
             some
              ⟨ctx.avatar,
               hackBaseFields m ++ hackExtraFields ctx.rnd ty,
               none, none, none, none, none,
               canManage,
               some ctx.mutualCount,
               none,
               some (ctx.guildId, m.id),
               ty⟩,
             none⟩, effects)

/-! ## Claim C4: firewall is self-only; the hack rejects self-targets -/

/-- `protect` leaves every other user's membership unchanged. -/
theorem isProtected_protect_other (st : FwState) (g u g2 v : String)
    (hv : v ≠ u) : isProtected (protect g u st) g2 v = isProtected st g2 v := by
  unfold protect
  by_cases hids : g = "" ∨ u = ""
  · rw [if_pos hids]
  · rw [if_neg hids]
    unfold isProtected
    by_cases hv2 : g2 = "" ∨ v = ""
    · rw [if_pos hv2, if_pos hv2]
    · rw [if_neg hv2, if_neg hv2]
      by_cases hgg : g2 = g
      · subst hgg
        simp only [if_pos rfl]
        unfold fwEnsure
        cases hst : st g2 with
        | none => simp [List.mem_insert_iff, hv]
        | some s => simp [List.mem_insert_iff, hv]
      · simp only [if_neg hgg]

/-- `unprotect` leaves every other user's membership unchanged. -/
theorem isProtected_unprotect_other (st : FwState) (g u g2 v : String)
    (hv : v ≠ u) : isProtected (unprotect g u st) g2 v = isProtected st g2 v := by
  unfold unprotect
  by_cases hids : g = "" ∨ u = ""
  · rw [if_pos hids]
  · rw [if_neg hids]
    unfold isProtected
    by_cases hv2 : g2 = "" ∨ v = ""
    · rw [if_pos hv2, if_pos hv2]
    · rw [if_neg hv2, if_neg hv2]
      by_cases hgg : g2 = g
      · subst hgg
        simp only [if_pos rfl]
        unfold fwEnsure
        cases hst : st g2 with
        | none => simp
        | some s => simp [List.mem_erase_of_ne hv]
      · simp only [if_neg hgg]

/-- C4: a firewall interaction by one user never changes any other
user's protection state in any guild (requests naming another member
are rejected before the store is touched), and a hack invocation whose
resolved target is the author is rejected with the refusal text and
performs no effects: no nickname animation, no DM, and (the handler
never writes the store) no protection change. -/
theorem firewall_self_only_and_hack_self_reject
    (st : FwState) (i : FwInteraction) (g2 v : String)
    (ctx : HackCtx) (arg : String) (m : Member)
    (hv : v ≠ i.userId)
    (harg : arg ≠ "")
    (hguild : ctx.inGuild = true)
    (hts : hackTargetStr arg ≠ "")
    (hres : ctx.resolve (hackTargetStr arg) = some m)
    (hid : m.id ≠ "")
    (hself : m.id = ctx.authorId) :
    isProtected (firewallInteraction st i).1 g2 v = isProtected st g2 v
    ∧ hackHandler ctx arg = (HackOut.text "You cannot hack yourself. Nice try.", []) := by
  constructor
  · unfold firewallInteraction
    by_cases hin : i.inGuild = false
    · rw [if_pos hin]
    · rw [if_neg hin]
      by_cases hreq : i.requestedUser.getD i.userId ≠ i.userId
      · simp only [if_pos hreq]
      · simp only [if_neg hreq]
        by_cases hon : i.sub = "on"
        · simp only [if_pos hon]
          exact isProtected_protect_other st i.guildId i.userId g2 v hv
        · simp only [if_neg hon]
          by_cases hoff : i.sub = "off"
          · simp only [if_pos hoff]
            exact isProtected_unprotect_other st i.guildId i.userId g2 v hv
          · simp only [if_neg hoff]
  · unfold hackHandler
    rw [if_neg harg, if_neg (by simp [hguild])]
    simp only [hres]
    rw [if_neg hts, if_neg hid, if_pos hself]

/-- Witness for C4: an interaction by "alice" naming "bob" is rejected
and leaves "bob" unprotected, and a hack whose resolved target is the
author is refused with no effects. -/
theorem firewall_self_only_and_hack_self_reject_witness :
    (("bob" : String) ≠ "alice")
    ∧ (("me" : String) ≠ "")
    ∧ (hackTargetStr "me" ≠ "")
    ∧ (isProtected
        (firewallInteraction (fun _ => none)
          ⟨true, "g1", "alice", "on", some "bob"⟩).1 "g1" "bob"
        = isProtected (fun _ => none) "g1" "bob"
      ∧ hackHandler
          ⟨"u9", 5, false, true, "g1",
           (fun s => if s = "me" then
              some ⟨"u9", "bob", "0001", "Bob", "c", "j", "a", "online", "None", 1, true⟩
            else none),
           (fun _ => none),
           ⟨"1.2.3.4", "ComNet", "t", "Unity Bank", "$1.00", "****1234", "x",
            "bob11@example.com", "Steam, Discord", "Free", "Yes", "3",
            "pw1234pw12", "Weak"⟩,
           0, none⟩
          "me"
        = (HackOut.text "You cannot hack yourself. Nice try.", [])) := by
  refine ⟨by decide, by decide, by decide, ?_⟩
  exact firewall_self_only_and_hack_self_reject (fun _ => none)
    ⟨true, "g1", "alice", "on", some "bob"⟩ "g1" "bob"
    ⟨"u9", 5, false, true, "g1",
     (fun s => if s = "me" then
        some ⟨"u9", "bob", "0001", "Bob", "c", "j", "a", "online", "None", 1, true⟩
      else none),
     (fun _ => none),
     ⟨"1.2.3.4", "ComNet", "t", "Unity Bank", "$1.00", "****1234", "x",
      "bob11@example.com", "Steam, Discord", "Free", "Yes", "3",
      "pw1234pw12", "Weak"⟩,
     0, none⟩
    "me"
    (⟨"u9", "bob", "0001", "Bob", "c", "j", "a", "online", "None", 1, true⟩ : Member)
    (by decide) (by decide) rfl (by decide) (by decide) (by decide) rfl

/-! ## Storage API (storage/api.js) -/

/-- A stored file: owning user, stored name, and size in bytes. -/
structure FileEntry where
  userId : String
  name : String
  size : Nat
  deriving DecidableEq, Repr

/-- The storage state: the files under every user's directory. -/
structure StorageState where
  entries : List FileEntry
  deriving DecidableEq, Repr

/-- `usedBytes(userId)`: the recursive directory-size recomputation. -/
def usedBytes (st : StorageState) (uid : String) : Nat :=
  ((st.entries.filter (fun e => e.userId = uid)).map (fun e => e.size)).sum

/-- A character the sanitizer replaces: the regex class
`[\x00<>:"\/\\|?*\x00-\x1F]` — control characters and the listed
punctuation. -/
def isForbiddenChar (c : Char) : Bool :=
  c.toNat < 32 || (['<', '>', ':', '\x22', '/', '\x5C', '|', '?', '*'].contains c)

/-- `safeFilename(name)`: replace every forbidden character with an
underscore and truncate to 200 characters. -/
def safeFilename (name : String) : String :=
  String.mk ((name.data.map (fun c => if isForbiddenChar c then '_' else c)).take 200)

/-- `path.join(baseDir, String(userId))` for plain components. -/
def userDir (base uid : String) : String := base ++ "/" ++ uid

/-- The parent of a directory path (model of `..` resolution in
`path.join`). -/
def parentDir (dir : String) : String :=
  String.intercalate "/" ((splitChar '/' dir).dropLast)

/-- `path.join(dir, name)` for a separator-free name: `path.join`
normalizes the dot components, so `.` yields the directory itself and
`..` its parent; any other separator-free name is appended. -/
def joinUserPath (dir name : String) : String :=
  if name = ".." then parentDir dir
  else if name = "." then dir
  else dir ++ "/" ++ name

/-- The effective filename: an empty (falsy) argument falls back to
`file-<timestamp>`. -/
def effName (filename : String) (ts : Nat) : String :=
  if filename = "" then "file-" ++ toString ts else filename

/-- The destination path a save computes for a given raw filename. -/
def destPath (base uid filename : String) (ts : Nat) : String :=
  joinUserPath (userDir base uid) (safeFilename (effName filename ts))

/-- Write (or overwrite) a file entry. -/
def putFile (st : StorageState) (uid name : String) (size : Nat) : StorageState :=
  ⟨(st.entries.filter (fun e => !(e.userId = uid && e.name = name))) ++ [⟨uid, name, size⟩]⟩

/-- `fs.unlink` of a user's file. -/
def removeEntry (st : StorageState) (uid name : String) : StorageState :=
  ⟨st.entries.filter (fun e => !(e.userId = uid && e.name = name))⟩

/-- Two-decimal fixed-point rendering of `num / den` (model of the JS
`toFixed(2)` on the byte-unit quotients, with half-up rounding). -/
def fixed2 (num den : Nat) : String :=
  let scaled := (num * 100 + den / 2) / den
  toString (scaled / 100) ++ "." ++
    (if scaled % 100 < 10 then "0" ++ toString (scaled % 100) else toString (scaled % 100))

/-- `human(n)` from storage/api.js: B/KB/MB/GB rendering. -/
def human (n : Nat) : String :=
  if n < 1024 then toString n ++ " B"
  else if n < 1024 * 1024 then fixed2 n 1024 ++ " KB"
  else if n < 1024 * 1024 * 1024 then fixed2 n (1024 * 1024) ++ " MB"
  else fixed2 n (1024 * 1024 * 1024) ++ " GB"

/-- A successful save's result record `{path, name, size}`. -/
structure SaveResult where
  path : String
  name : String
  size : Nat
  deriving DecidableEq, Repr

/-- The quota-exceeded error message. -/
def quotaMsg (allowed : Nat) : String :=
  "QuotaExceeded: file would exceed quota. allowed: " ++ human allowed

/-- `saveFileFromBuffer(userId, filename, buffer)`: sanitize the name,
recompute the directory usage, reject before writing when the projected
usage exceeds the quota, otherwise write the file. Returns the resulting
state together with the outcome. -/
def saveFileFromBuffer (base : String) (quota : Nat) (st : StorageState)
    (uid filename : String) (dataLen ts : Nat) :
    StorageState × Except String SaveResult :=
  let safe := safeFilename (effName filename ts)
  let dest := joinUserPath (userDir base uid) safe
  let currentUsed := usedBytes st uid
  if currentUsed + dataLen > quota then
    (st, Except.error (quotaMsg (quota - currentUsed)))
  else
    (putFile st uid safe dataLen, Except.ok ⟨dest, safe, dataLen⟩)

/-- `saveFileFromStream(userId, filename, stream)`: stream the data into
a temporary file first, then recompute usage (which now includes the
temporary file), unlink the temporary and reject when the projected
usage exceeds the quota, otherwise rename the temporary over the
destination. `tmpHex` is the random temporary-name suffix. -/
def saveFileFromStream (base : String) (quota : Nat) (st : StorageState)
    (uid filename : String) (streamLen ts : Nat) (tmpHex : String) :
    StorageState × Except String SaveResult :=
  let safe := safeFilename (effName filename ts)
  let dest := joinUserPath (userDir base uid) safe
  let tmpName := safe ++ ".tmp-" ++ tmpHex
  let st1 := putFile st uid tmpName streamLen
  let currentUsed := usedBytes st1 uid
  if currentUsed + streamLen > quota then
    (removeEntry st1 uid tmpName, Except.error (quotaMsg (quota - currentUsed)))
  else
    (putFile (removeEntry st1 uid tmpName) uid safe streamLen,
      Except.ok ⟨dest, safe, streamLen⟩)

/-- Whether an outcome is the quota-exceeded failure. -/
def isQuotaErr : Except String SaveResult → Bool
  | Except.error msg => strStartsWith msg "QuotaExceeded"
  | Except.ok _ => false

/-- A path lies directly inside the user's directory: it extends
`<baseDir>/<userId>/` by one non-empty separator-free component. -/
def isDirectlyInside (base uid p : String) : Bool :=
  let d := userDir base uid ++ "/"
  (d.data.isPrefixOf p.data) && (p.data.drop d.data.length ≠ [])
    && !((p.data.drop d.data.length).contains '/')

/-- A fresh name filters to the identity on the entry list. -/
theorem filter_fresh (l : List FileEntry) (uid name : String)
    (h : l.all (fun e => !(e.userId = uid && e.name = name)) = true) :
    l.filter (fun e => !(e.userId = uid && e.name = name)) = l :=
  List.filter_eq_self.mpr (List.all_eq_true.mp h)

/-- Writing under a fresh name appends one entry. -/
theorem putFile_fresh_entries (st : StorageState) (uid name : String) (size : Nat)
    (h : st.entries.all (fun e => !(e.userId = uid && e.name = name)) = true) :
    (putFile st uid name size).entries = st.entries ++ [⟨uid, name, size⟩] := by
  unfold putFile
  rw [filter_fresh st.entries uid name h]

/-- Writing under a fresh name adds its size to the user's usage. -/
theorem usedBytes_putFile_fresh (st : StorageState) (uid name : String) (size : Nat)
    (h : st.entries.all (fun e => !(e.userId = uid && e.name = name)) = true) :
    usedBytes (putFile st uid name size) uid = usedBytes st uid + size := by
  unfold usedBytes
  rw [putFile_fresh_entries st uid name size h]
  simp [List.filter_append]

/-- Unlinking a freshly written name restores the original state. -/
theorem removeEntry_putFile_fresh (st : StorageState) (uid name : String) (size : Nat)
    (h : st.entries.all (fun e => !(e.userId = uid && e.name = name)) = true) :
    removeEntry (putFile st uid name size) uid name = st := by
  unfold removeEntry putFile
  simp only [List.filter_append, List.filter_filter]
  have h1 : (List.filter (fun e => !(e.userId = uid && e.name = name)) [(⟨uid, name, size⟩ : FileEntry)]) = [] := by
    simp [List.filter]
  rw [show (fun (e : FileEntry) => (!(e.userId = uid && e.name = name) && !(e.userId = uid && e.name = name))) = (fun e => !(e.userId = uid && e.name = name)) from by funext e; cases (!(e.userId = uid && e.name = name)) <;> simp]
  rw [h1, filter_fresh st.entries uid name h, List.append_nil]

/-- The quota error message always carries the QuotaExceeded marker. -/
theorem quotaMsg_marker (allowed : Nat) :
    strStartsWith (quotaMsg allowed) "QuotaExceeded" = true := rfl

/-! ## Claim C3: an over-quota save fails and writes nothing -/

/-- C3: with 799 MB already used and an 800 MB quota, saving a 2 MB file
fails with a quota-exceeded error and performs no write — the state
(hence the stored files and the used-byte total) is unchanged — for both
the buffer and the stream paths. The stream path's freshness hypothesis
says no stored file already bears the random temporary name the call
would use. -/
theorem quota_exceeded_save_rejected (base : String) (st : StorageState)
    (uid filename : String) (ts : Nat) (tmpHex : String)
    (hused : usedBytes st uid = 799 * 1024 * 1024)
    (hfresh : st.entries.all (fun e =>
      !(e.userId = uid
        && e.name = safeFilename (effName filename ts) ++ ".tmp-" ++ tmpHex)) = true) :
    ((saveFileFromBuffer base (800 * 1024 * 1024) st uid filename
        (2 * 1024 * 1024) ts).1 = st
      ∧ isQuotaErr (saveFileFromBuffer base (800 * 1024 * 1024) st uid filename
        (2 * 1024 * 1024) ts).2 = true)
    ∧ ((saveFileFromStream base (800 * 1024 * 1024) st uid filename
        (2 * 1024 * 1024) ts tmpHex).1 = st
      ∧ isQuotaErr (saveFileFromStream base (800 * 1024 * 1024) st uid filename
        (2 * 1024 * 1024) ts tmpHex).2 = true) := by
  have hover : usedBytes st uid + 2 * 1024 * 1024 > 800 * 1024 * 1024 := by
    rw [hused]; norm_num
  constructor
  · simp only [saveFileFromBuffer]
    rw [if_pos hover]
    exact ⟨rfl, quotaMsg_marker _⟩
  · simp only [saveFileFromStream]
    have hgrow := usedBytes_putFile_fresh st uid
      (safeFilename (effName filename ts) ++ ".tmp-" ++ tmpHex)
      (2 * 1024 * 1024) hfresh
    have hover2 : usedBytes
        (putFile st uid (safeFilename (effName filename ts) ++ ".tmp-" ++ tmpHex)
          (2 * 1024 * 1024)) uid + 2 * 1024 * 1024 > 800 * 1024 * 1024 := by
      rw [hgrow, hused]; norm_num
    rw [if_pos hover2]
    refine ⟨?_, quotaMsg_marker _⟩
    exact removeEntry_putFile_fresh st uid _ (2 * 1024 * 1024) hfresh

/-- Witness for C3: a user with one 799 MB file saving "report.bin"
(2 MB) is rejected on both paths with the state unchanged. -/
theorem quota_exceeded_save_rejected_witness :
    (usedBytes ⟨[⟨"u1", "big.bin", 799 * 1024 * 1024⟩]⟩ "u1" = 799 * 1024 * 1024)
    ∧ (([⟨"u1", "big.bin", 799 * 1024 * 1024⟩] : List FileEntry).all (fun e =>
        !(e.userId = "u1"
          && e.name = safeFilename (effName "report.bin" 7) ++ ".tmp-" ++ "abc123")) = true)
    ∧ (((saveFileFromBuffer "/data/users" (800 * 1024 * 1024)
          ⟨[⟨"u1", "big.bin", 799 * 1024 * 1024⟩]⟩ "u1" "report.bin"
          (2 * 1024 * 1024) 7).1 = ⟨[⟨"u1", "big.bin", 799 * 1024 * 1024⟩]⟩
        ∧ isQuotaErr (saveFileFromBuffer "/data/users" (800 * 1024 * 1024)
          ⟨[⟨"u1", "big.bin", 799 * 1024 * 1024⟩]⟩ "u1" "report.bin"
          (2 * 1024 * 1024) 7).2 = true)
      ∧ ((saveFileFromStream "/data/users" (800 * 1024 * 1024)
          ⟨[⟨"u1", "big.bin", 799 * 1024 * 1024⟩]⟩ "u1" "report.bin"
          (2 * 1024 * 1024) 7 "abc123").1 = ⟨[⟨"u1", "big.bin", 799 * 1024 * 1024⟩]⟩
        ∧ isQuotaErr (saveFileFromStream "/data/users" (800 * 1024 * 1024)
          ⟨[⟨"u1", "big.bin", 799 * 1024 * 1024⟩]⟩ "u1" "report.bin"
          (2 * 1024 * 1024) 7 "abc123").2 = true)) := by
  refine ⟨by decide, by decide, ?_⟩
  exact quota_exceeded_save_rejected "/data/users"
    ⟨[⟨"u1", "big.bin", 799 * 1024 * 1024⟩]⟩ "u1" "report.bin" 7 "abc123"
    (by decide) (by decide)

/-! ## Claim C10: sanitizer containment and the dot-name escape -/

/-- Counterexample to C10 as stated: the filename `".."` survives
sanitization unchanged (no dot is in the forbidden class), the buffer
save accepts it, and the path it computes and writes is the parent of
the user directory — not directly inside `<baseDir>/<userId>`. -/
theorem dotdot_filename_escapes :
    safeFilename ".." = ".."
    ∧ (saveFileFromBuffer "/data/users" (800 * 1024 * 1024) ⟨[]⟩ "u1" ".."
        1024 0).2 = Except.ok ⟨"/data/users", "..", 1024⟩
    ∧ isDirectlyInside "/data/users" "u1" "/data/users" = false := by
  refine ⟨by decide, ?_, by decide⟩
  rfl

/-- Every character of a sanitized name is outside the forbidden class. -/
theorem safeFilename_no_forbidden (name : String) :
    ∀ c ∈ (safeFilename name).data, isForbiddenChar c = false := by
  intro c hc
  unfold safeFilename at hc
  simp only [String.data] at hc
  have hc2 := List.mem_of_mem_take hc
  rcases List.mem_map.mp hc2 with ⟨orig, _, hfix⟩
  by_cases hforb : isForbiddenChar orig = true
  · rw [← hfix, if_pos hforb]; decide
  · rw [← hfix, if_neg hforb]
    exact Bool.eq_false_iff.mpr hforb

/-- A sanitized name contains no path separator. -/
theorem safeFilename_no_separator (name : String) :
    ((safeFilename name).data.contains '/') = false := by
  rw [List.contains_eq_any_beq]
  rw [List.any_eq_false]
  intro c hc
  have hnf := safeFilename_no_forbidden name c hc
  simp only [beq_iff_eq]
  intro heq
  rw [← heq] at hnf
  exact absurd hnf (by decide)

/-- A sanitized nonempty input stays nonempty. -/
theorem safeFilename_ne_empty (name : String) (h : name ≠ "") :
    (safeFilename name).data ≠ [] := by
  unfold safeFilename
  simp only [String.data]
  intro hemp
  rcases List.take_eq_nil_iff.mp hemp with h2 | h2
  · exact absurd h2 (by decide)
  · rcases List.map_eq_nil_iff.mp h2 with h3
    exact h (by cases name with | mk d => simpa using congrArg String.mk h3)

/-- The effective filename is never empty. -/
theorem effName_ne_empty (filename : String) (ts : Nat) :
    effName filename ts ≠ "" := by
  unfold effName
  by_cases hf : filename = ""
  · rw [if_pos hf]
    intro h
    have h2 := congrArg String.data h
    simp at h2

  · rw [if_neg hf]; exact hf

/-- C10, amended: the stored name is the input with every forbidden
character replaced by an underscore, truncated to at most 200
characters; this removes every path separator, so for every sanitized
name other than the literal dot names `"."` and `".."` — which survive
sanitization — the destination both save paths compute (and report in
their result record) lies directly inside `<baseDir>/<userId>`. -/
theorem sanitized_saves_stay_inside (base uid filename : String) (ts : Nat)
    (q dataLen : Nat) (st : StorageState) (r : SaveResult) (tmpHex : String)
    (hdot : safeFilename (effName filename ts) ≠ ".")
    (hdotdot : safeFilename (effName filename ts) ≠ "..") :
    ((safeFilename (effName filename ts)).length ≤ 200
      ∧ ∀ c ∈ (safeFilename (effName filename ts)).data, isForbiddenChar c = false)
    ∧ isDirectlyInside base uid (destPath base uid filename ts) = true
    ∧ ((saveFileFromBuffer base q st uid filename dataLen ts).2 = Except.ok r →
        r.path = destPath base uid filename ts
        ∧ r.name = safeFilename (effName filename ts))
    ∧ ((saveFileFromStream base q st uid filename dataLen ts tmpHex).2 = Except.ok r →
        r.path = destPath base uid filename ts
        ∧ r.name = safeFilename (effName filename ts)) := by
  refine ⟨⟨?_, safeFilename_no_forbidden _⟩, ?_, ?_, ?_⟩
  · show (safeFilename (effName filename ts)).data.length ≤ 200
    unfold safeFilename
    simp only [String.data]
    exact List.length_take_le 200 _
  · unfold destPath joinUserPath
    rw [if_neg hdotdot, if_neg hdot]
    unfold isDirectlyInside
    have hdata : ((userDir base uid ++ "/") ++ safeFilename (effName filename ts)).data
        = (userDir base uid ++ "/").data ++ (safeFilename (effName filename ts)).data := rfl
    simp only [hdata]
    refine (Bool.and_eq_true _ _).mpr ⟨(Bool.and_eq_true _ _).mpr ⟨?_, ?_⟩, ?_⟩
    · exact List.isPrefixOf_iff_prefix.mpr (List.prefix_append _ _)
    · rw [List.drop_left]
      simp only [decide_eq_true_eq]
      exact safeFilename_ne_empty _ (effName_ne_empty filename ts)
    · rw [List.drop_left]
      rw [safeFilename_no_separator]
      rfl
  · intro hok
    unfold saveFileFromBuffer at hok
    by_cases hq : usedBytes st uid + dataLen > q
    · rw [if_pos hq] at hok; exact absurd hok (by simp)
    · rw [if_neg hq] at hok
      have := (Except.ok.injEq _ _).mp hok
      rw [← this]
      exact ⟨rfl, rfl⟩
  · intro hok
    unfold saveFileFromStream at hok
    by_cases hq : usedBytes (putFile st uid
        (safeFilename (effName filename ts) ++ ".tmp-" ++ tmpHex) dataLen) uid
        + dataLen > q
    · rw [if_pos hq] at hok; exact absurd hok (by simp)
    · rw [if_neg hq] at hok
      have := (Except.ok.injEq _ _).mp hok
      rw [← this]
      exact ⟨rfl, rfl⟩

/-- Witness for the amended C10 at a traversal-shaped filename
`"../..\x5Cpasswd<x>:*"`, whose sanitized form is `".._.._passwd_x__"`. -/
theorem sanitized_saves_stay_inside_witness :
    (safeFilename (effName "../..\x5Cpasswd<x>:*" 7) ≠ ".")
    ∧ (safeFilename (effName "../..\x5Cpasswd<x>:*" 7) ≠ "..")
    ∧ (((safeFilename (effName "../..\x5Cpasswd<x>:*" 7)).length ≤ 200
        ∧ ∀ c ∈ (safeFilename (effName "../..\x5Cpasswd<x>:*" 7)).data,
            isForbiddenChar c = false)
      ∧ isDirectlyInside "/data/users" "u1"
          (destPath "/data/users" "u1" "../..\x5Cpasswd<x>:*" 7) = true
      ∧ ((saveFileFromBuffer "/data/users" 100 ⟨[]⟩ "u1" "../..\x5Cpasswd<x>:*" 10 7).2
            = Except.ok (⟨destPath "/data/users" "u1" "../..\x5Cpasswd<x>:*" 7,
                safeFilename (effName "../..\x5Cpasswd<x>:*" 7), 10⟩ : SaveResult) →
          (⟨destPath "/data/users" "u1" "../..\x5Cpasswd<x>:*" 7,
              safeFilename (effName "../..\x5Cpasswd<x>:*" 7), 10⟩ : SaveResult).path
            = destPath "/data/users" "u1" "../..\x5Cpasswd<x>:*" 7
          ∧ (⟨destPath "/data/users" "u1" "../..\x5Cpasswd<x>:*" 7,
              safeFilename (effName "../..\x5Cpasswd<x>:*" 7), 10⟩ : SaveResult).name
            = safeFilename (effName "../..\x5Cpasswd<x>:*" 7))
      ∧ ((saveFileFromStream "/data/users" 100 ⟨[]⟩ "u1" "../..\x5Cpasswd<x>:*"
            10 7 "ff00aa").2
            = Except.ok (⟨destPath "/data/users" "u1" "../..\x5Cpasswd<x>:*" 7,
                safeFilename (effName "../..\x5Cpasswd<x>:*" 7), 10⟩ : SaveResult) →
          (⟨destPath "/data/users" "u1" "../..\x5Cpasswd<x>:*" 7,
              safeFilename (effName "../..\x5Cpasswd<x>:*" 7), 10⟩ : SaveResult).path
            = destPath "/data/users" "u1" "../..\x5Cpasswd<x>:*" 7
          ∧ (⟨destPath "/data/users" "u1" "../..\x5Cpasswd<x>:*" 7,
              safeFilename (effName "../..\x5Cpasswd<x>:*" 7), 10⟩ : SaveResult).name
            = safeFilename (effName "../..\x5Cpasswd<x>:*" 7))) := by
  refine ⟨by decide, by decide, ?_⟩
  exact sanitized_saves_stay_inside "/data/users" "u1" "../..\x5Cpasswd<x>:*" 7
    100 10 ⟨[]⟩
    (⟨destPath "/data/users" "u1" "../..\x5Cpasswd<x>:*" 7,
      safeFilename (effName "../..\x5Cpasswd<x>:*" 7), 10⟩ : SaveResult) "ff00aa"
    (by decide) (by decide)

/-! ## Deploy and remove utilities (deploy-commands.js, remove-commands.js) -/

/-- deploy-commands.js as an exit-code function: a falsy `BOT_TOKEN`
aborts with 1 before anything else; an empty registration list exits 1;
a failed application-id lookup or a failed registration `put` is caught
and exits 1; success exits 0. -/
def deployExitCode (token : String) (toRegister : List String)
    (appId : Option String) (putOutcome : Except String Nat) : Nat :=
  if token = "" then 1
  else if toRegister.isEmpty then 1
  else
    match appId with
    | none => 1
    | some _ =>
      match putOutcome with
      | Except.ok _ => 0
      | Except.error _ => 1

/-- remove-commands.js as an exit-code function: falsy `BOT_TOKEN` or
`CLIENT_ID` aborts with 1; the async body catches every failure of the
fetch/delete sequence, merely logs it, and never calls `process.exit`,
so the process exits 0 whether the deletion succeeded or failed. -/
def removeExitCode (token clientId : String)
    (outcome : Except String (List String)) : Nat :=
  if token = "" ∨ clientId = "" then 1
  else
    match outcome with
    | Except.ok _ => 0
    | Except.error _ => 0

/-! ## Claim C8: exit codes of the deploy/remove utilities -/

/-- Counterexample to C8 as stated: with credentials present, a failing
deletion in remove-commands.js does NOT exit with code 1 — the error is
caught and logged and the process exits 0. -/
theorem remove_failure_exits_zero :
    ¬ (removeExitCode "tok" "cid" (Except.error "network error") = 1) := by
  decide

/-- C8, amended: the deploy utility exits 1 on missing credentials, an
empty registration set, a failed application-id lookup, or a failed
registration, and 0 on success; the remove utility exits 1 only on
missing credentials and exits 0 otherwise — including when the deletion
operation fails. -/
theorem deploy_remove_exit_codes (tok cid a emsg : String)
    (toReg : List String) (n : Nat) (res : List String)
    (htok : tok ≠ "") (hreg : toReg ≠ []) (hcid : cid ≠ "") :
    deployExitCode "" toReg (some a) (Except.ok n) = 1
    ∧ deployExitCode tok [] (some a) (Except.ok n) = 1
    ∧ deployExitCode tok toReg none (Except.ok n) = 1
    ∧ deployExitCode tok toReg (some a) (Except.error emsg) = 1
    ∧ deployExitCode tok toReg (some a) (Except.ok n) = 0
    ∧ removeExitCode "" cid (Except.ok res) = 1
    ∧ removeExitCode tok "" (Except.ok res) = 1
    ∧ removeExitCode tok cid (Except.ok res) = 0
    ∧ removeExitCode tok cid (Except.error emsg) = 0 := by
  unfold deployExitCode removeExitCode
  have hne : ¬ toReg.isEmpty = true := by
    cases toReg with
    | nil => exact absurd rfl hreg
    | cons x xs => simp
  refine ⟨by simp, by simp [htok], ?_, ?_, ?_, by simp, by simp [htok], ?_, ?_⟩
  · rw [if_neg htok, if_neg hne]
  · rw [if_neg htok, if_neg hne]
  · rw [if_neg htok, if_neg hne]
  · rw [if_neg (by simp [htok, hcid])]
  · rw [if_neg (by simp [htok, hcid])]

/-- Witness for the amended C8 at concrete credentials, command list and
outcomes. -/
theorem deploy_remove_exit_codes_witness :
    (("tok" : String) ≠ "") ∧ ((["help"] : List String) ≠ []) ∧ (("cid" : String) ≠ "")
    ∧ (deployExitCode "" ["help"] (some "app1") (Except.ok 1) = 1
      ∧ deployExitCode "tok" [] (some "app1") (Except.ok 1) = 1
      ∧ deployExitCode "tok" ["help"] none (Except.ok 1) = 1
      ∧ deployExitCode "tok" ["help"] (some "app1") (Except.error "http 401") = 1
      ∧ deployExitCode "tok" ["help"] (some "app1") (Except.ok 1) = 0
      ∧ removeExitCode "" "cid" (Except.ok ["toggle"]) = 1
      ∧ removeExitCode "tok" "" (Except.ok ["toggle"]) = 1
      ∧ removeExitCode "tok" "cid" (Except.ok ["toggle"]) = 0
      ∧ removeExitCode "tok" "cid" (Except.error "http 401") = 0) := by
  refine ⟨by decide, by decide, by decide, ?_⟩
  exact deploy_remove_exit_codes "tok" "cid" "app1" "http 401" ["help"] 1 ["toggle"]
    (by decide) (by decide) (by decide)

end TerminalBot
